import Mathlib

/-!
Verification of the event subsystem: discriminator derivation, event record
encoding, the log-channel emitter, and the authenticated (self-CPI) emitter
with its authority validation. Definitions are a shallow embedding of the
code generated by the attribute and function-like macros in
`src/lang/attribute/event/src/lib.rs`; external collaborators (the
cryptographic hash, the binary serializer, the address-derivation rule, the
dispatch oracle, the base64 log line) are modelled from the specification at
their interface boundary.
-/

namespace AnchorEvent

/-- Addresses (public keys) are modelled as opaque naturals; the code only
ever compares them for equality. -/
abbrev Pubkey := Nat

/-- The bytes of a string (the code hashes the UTF-8 bytes of ASCII
identifier strings, where code points and bytes coincide). -/
def strBytes (s : String) : List Nat := s.data.map Char.toNat

/-- Modelled from the spec: `anchor_syn::hash::hash` (the cryptographic
one-way hash used by the `event` macro) is not under `src/`; per §4.1 it is
an arbitrary digest function over byte strings, and where the spec relies on
its truncation being collision-free that appears as an explicit hypothesis. -/
abbrev HashFun := List Nat → List Nat

/-- The preimage string built by the `event` macro:
`format!("event:{event_name}")`. -/
def discriminator_preimage (eventName : String) : String :=
  "event:" ++ eventName

/-- `copy_from_slice` on a fixed-size destination: succeeds (returning the
source bytes) exactly when the lengths agree, otherwise the process aborts
(modelled as `none`). -/
def copyFromSlice (dst src : List Nat) : Option (List Nat) :=
  if src.length = dst.length then some src else none

/-- The discriminator computed by the `event` attribute macro: start from
`[0u8; 8]` and `copy_from_slice` the first 8 bytes of the digest of the
preimage into it.  The resulting literal is baked into the generated
`DISCRIMINATOR` constant and into `Event::data`. -/
def eventDiscriminator (h : HashFun) (eventName : String) : Option (List Nat) :=
  copyFromSlice (List.replicate 8 0)
    ((h (strBytes (discriminator_preimage eventName))).take 8)

/-- Stated from the spec's words, for comparison with `eventDiscriminator`:
"compute a cryptographic one-way hash of the string `"event:" + TypeName`;
take the first 8 bytes of the digest as the tag". -/
def specDiscriminatorTag (h : HashFun) (typeName : String) : List Nat :=
  (h (strBytes ("event:" ++ typeName))).take 8

/-- The generated `Event::data`: `disc.to_vec()` followed by appending
`self.try_to_vec().unwrap()`.  `disc` is the baked discriminator literal;
the external serializer `ser` may fail, in which case `unwrap` aborts the
process (modelled as `none`). -/
def eventData {α : Type} (disc : List Nat) (ser : α → Option (List Nat)) (e : α) :
    Option (List Nat) :=
  match ser e with
  | some payload => some (disc ++ payload)
  | none => none

/-- Modelled from the spec: `EVENT_IX_TAG_LE`, the reserved
instruction-envelope tag (a constant of `anchor_lang`, not under `src/`),
"derived the same way but from a distinct, reserved preimage namespace" —
the reserved preimage `"anchor:event"`. -/
def EVENT_IX_TAG_LE (h : HashFun) : List Nat :=
  (h (strBytes "anchor:event")).take 8

/-- An account reference attached to an instruction. -/
structure AccountMeta where
  pubkey : Pubkey
  is_signer : Bool
  is_writable : Bool
deriving DecidableEq

/-- `AccountMeta::new_readonly`: a read-only account reference. -/
def AccountMeta.new_readonly (pk : Pubkey) (sgn : Bool) : AccountMeta :=
  ⟨pk, sgn, false⟩

/-- An instruction handed to the dispatch oracle. -/
structure Instruction where
  program_id : Pubkey
  data : List Nat
  accounts : List AccountMeta
deriving DecidableEq

/-- `Instruction::new_with_bytes`. -/
def Instruction.new_with_bytes (pid : Pubkey) (d : List Nat)
    (accs : List AccountMeta) : Instruction :=
  ⟨pid, d, accs⟩

/-- A runtime account handle; the generated code only reads its `key`. -/
structure AccountInfo where
  key : Pubkey
deriving DecidableEq

/-- The accounts context available to `emit_cpi`-generated code:
`ctx.accounts.event_authority`, `ctx.accounts.program`, and the `ctx.bumps`
map populated by the accounts-validation layer. -/
structure CpiContext where
  event_authority : AccountInfo
  program : AccountInfo
  bumps : List (String × Nat)
deriving DecidableEq

/-- The framework error type: `anchor_lang::error::Error`.  The spec names
the validation failure `AuthorityMismatch`; oracle failures are wrapped
program errors. -/
inductive AnchorError where
  | authorityMismatch
  | programError (code : Nat)
deriving DecidableEq

/-- `anchor_lang::error::Error::from` applied to the error returned by
`invoke_signed`. -/
def errorFrom (code : Nat) : AnchorError := .programError code

/-- One nested invocation request: the instruction, the account infos passed
along, and the derived-signer seed groups. -/
structure Invocation where
  ix : Instruction
  infos : List AccountInfo
  seeds : List (List (List Nat))
deriving DecidableEq

/-- Modelled from the spec: the trusted dispatch oracle's `invoke` interface
(`invoke_signed` is host-environment code, not under `src/`): it receives an
instruction, account infos and derived-signer proofs, and either succeeds or
reports a numeric failure. -/
abbrev Oracle := Instruction → List AccountInfo → List (List (List Nat)) → Except Nat Unit

/-- Outcome of one emission through the authenticated channel. -/
inductive CpiOutcome where
  | panicked
  | failed (e : AnchorError)
  | ok
deriving DecidableEq

/-- The observable trace of one authenticated emission: the invocations
handed to the oracle, and the outcome returned to the caller. -/
structure EmitTrace where
  invoked : List Invocation
  outcome : CpiOutcome
deriving DecidableEq

/-- The call envelope built by the `emit_cpi` macro expansion:
`__ix_data = EVENT_IX_TAG_LE ++ Event::data(event)`, an instruction built
with `new_with_bytes` addressed at `program.key` with the single read-only
required-signer account `event_authority.key`, the account infos
`[program, event_authority]`, and the signer seeds
`[[b"__event_authority", [bump]]]`. -/
def emitCpiEnvelope (h : HashFun) (ctx : CpiContext) (rec : List Nat)
    (bump : Nat) : Invocation :=
  let disc := EVENT_IX_TAG_LE h
  let ixData := disc ++ rec
  let ix := Instruction.new_with_bytes ctx.program.key ixData
    [AccountMeta.new_readonly ctx.event_authority.key true]
  ⟨ix, [ctx.program, ctx.event_authority], [[strBytes "__event_authority", [bump]]]⟩

/-- The `emit_cpi` macro expansion: look the bump up in `ctx.bumps` and
`unwrap` it (panic when absent), compute `Event::data` (panic when the
serializer fails, modelled by `rec? = none`), build the envelope, call
`invoke_signed`, and map any oracle failure through `Error::from` before
propagating it with `?`. -/
def emit_cpi (h : HashFun) (oracle : Oracle) (ctx : CpiContext)
    (rec? : Option (List Nat)) : EmitTrace :=
  match ctx.bumps.lookup "event_authority" with
  | none => ⟨[], .panicked⟩
  | some bump =>
    match rec? with
    | none => ⟨[], .panicked⟩
    | some rec =>
      let env := emitCpiEnvelope h ctx rec bump
      match oracle env.ix env.infos env.seeds with
      | .ok _ => ⟨[env], .ok⟩
      | .error e => ⟨[env], .failed (errorFrom e)⟩

/-- Modelled from the spec: the environment's deterministic
address-derivation rule (`find_program_address`): seeds and an owning
program identity yield an address and a bump. -/
abbrev DeriveFun := List (List Nat) → Pubkey → Pubkey × Nat

/-- Modelled from the spec: the accounts validation generated by
`#[derive(Accounts)]` for the two fields the `event_cpi` attribute injects —
"given an account presented as authority, recompute the expected
AuthorityAddress from the known owning-program identity and the fixed seed,
and reject (abort) if it does not match; separately, given an account
presented as program, reject unless it equals the statically known
owning-program identity". -/
def validateEventCpiAccounts (derive : DeriveFun) (owningId : Pubkey)
    (ctx : CpiContext) : Except AnchorError Unit :=
  let expected := (derive [strBytes "__event_authority"] owningId).1
  if ctx.event_authority.key = expected then
    if ctx.program.key = owningId then .ok ()
    else .error .authorityMismatch
  else .error .authorityMismatch

/-- The authenticated channel end to end: validate the `event_cpi`-injected
accounts, then run the `emit_cpi` expansion; a validation failure rejects
the emission before any dispatch. -/
def emitAuthenticated (h : HashFun) (derive : DeriveFun) (oracle : Oracle)
    (owningId : Pubkey) (ctx : CpiContext) (rec? : Option (List Nat)) : EmitTrace :=
  match validateEventCpiAccounts derive owningId ctx with
  | .error e => ⟨[], .failed e⟩
  | .ok _ => emit_cpi h oracle ctx rec?

/-- Modelled from the spec: the context built by the `event_cpi`-generated
accounts struct — the injected `event_authority` field holds the derived
authority address and records its bump in the bumps map under the field name
`"event_authority"`, after any user-declared fields; the injected `program`
field holds the owning identity. -/
def buildEventCpiContext (derive : DeriveFun) (owningId : Pubkey)
    (userBumps : List (String × Nat)) : CpiContext :=
  { event_authority := ⟨(derive [strBytes "__event_authority"] owningId).1⟩
    program := ⟨owningId⟩
    bumps := userBumps ++ [("event_authority", (derive [strBytes "__event_authority"] owningId).2)] }

/-- Modelled from the spec: the environment's single structured-data log
primitive (`sol_log_data`, host-environment code): appends one entry holding
the given fields to the log. -/
def sol_log_data (fields : List (List Nat)) (log : List (List (List Nat))) :
    List (List (List Nat)) :=
  log ++ [fields]

/-- The `emit` macro expansion: one call to `sol_log_data` with the single
field `Event::data(&event)`; a serializer panic (modelled by `eventData`
returning `none`) aborts before anything is logged. -/
def emitLog {α : Type} (disc : List Nat) (ser : α → Option (List Nat)) (e : α)
    (log : List (List (List Nat))) : Option (List (List (List Nat))) :=
  (eventData disc ser e).map (fun d => sol_log_data [d] log)

/-- The base64 alphabet. -/
def b64Alphabet : List Char :=
  "ABCDEFGHIJKLMNOPQRSTUVWXYZabcdefghijklmnopqrstuvwxyz0123456789+/".data

/-- The character for a sextet value. -/
def b64Char (s : Nat) : Char := b64Alphabet.getD s 'A'

/-- The sextet value of an alphabet character. -/
def b64Index (c : Char) : Option Nat := b64Alphabet.findIdx? (· == c)

/-- Standard base64 encoding of a byte string (with padding). -/
def b64Encode : List Nat → List Char
  | [] => []
  | [a] => [b64Char (a / 4), b64Char (a % 4 * 16), '=', '=']
  | [a, b] => [b64Char (a / 4), b64Char (a % 4 * 16 + b / 16), b64Char (b % 16 * 4), '=']
  | a :: b :: c :: rest =>
      b64Char (a / 4) :: b64Char (a % 4 * 16 + b / 16) :: b64Char (b % 16 * 4 + c / 64)
        :: b64Char (c % 64) :: b64Encode rest

/-- Base64 decoding (the off-chain observer's side of the log wire format). -/
def b64Decode : List Char → Option (List Nat)
  | [] => some []
  | c1 :: c2 :: c3 :: c4 :: rest =>
    match b64Index c1, b64Index c2 with
    | some d1, some d2 =>
      if c3 = '=' then
        if c4 = '=' ∧ rest = [] then some [d1 * 4 + d2 / 16] else none
      else
        match b64Index c3 with
        | some d3 =>
          if c4 = '=' then
            if rest = [] then some [d1 * 4 + d2 / 16, d2 % 16 * 16 + d3 / 4]
            else none
          else
            match b64Index c4, b64Decode rest with
            | some d4, some ds =>
                some ((d1 * 4 + d2 / 16) :: (d2 % 16 * 16 + d3 / 4)
                  :: (d3 % 4 * 64 + d4) :: ds)
            | _, _ => none
        | none => none
    | _, _ => none
  | _ => none

/-- Modelled from the spec: the log wire format — the runtime renders the
logged record as the base64 text of its bytes on the data line. -/
def logLineOfRecord (rec : List Nat) : List Char := b64Encode rec

/-- A concrete digest function for witnesses: input bytes padded with a
32-byte tail, so every digest has at least 8 bytes. -/
def hashEx : HashFun := fun bs => bs ++ List.replicate 32 0

/-- A concrete digest function whose 8-byte truncation is injective (the
whole preimage is packed into a single unbounded first component). -/
def hInjEx : HashFun := fun s => [Encodable.encode s]

/-- A concrete fallible serializer for witnesses. -/
def serEx : Nat → Option (List Nat) := fun n => if n = 0 then none else some [n % 256]

/-- A concrete accounts context for witnesses. -/
def ctxEx : CpiContext :=
  { event_authority := ⟨42⟩, program := ⟨3⟩, bumps := [("event_authority", 5)] }

/-- A concrete accounts context whose bumps map lacks the authority entry. -/
def ctxNoBump : CpiContext :=
  { event_authority := ⟨42⟩, program := ⟨3⟩, bumps := [] }

/-- An oracle that always succeeds. -/
def oracleOk : Oracle := fun _ _ _ => .ok ()

/-- An oracle that always fails with code 7. -/
def oracleFail : Oracle := fun _ _ _ => .error 7

/-- A concrete deterministic address-derivation rule for witnesses. -/
def deriveEx : DeriveFun := fun _ pid => (pid + 1000, 254)

/-- A discriminator produced by the source computation has exactly 8 bytes:
`copy_from_slice` into `[0u8; 8]` only succeeds at that length. -/
theorem eventDiscriminator_length (h : HashFun) (name : String) (disc : List Nat)
    (hd : eventDiscriminator h name = some disc) : disc.length = 8 := by
  unfold eventDiscriminator copyFromSlice at hd
  by_cases hc :
      ((h (strBytes (discriminator_preimage name))).take 8).length
        = (List.replicate 8 (0 : Nat)).length
  · rw [if_pos hc] at hd
    cases hd
    simpa using hc
  · rw [if_neg hc] at hd
    cases hd

/-- Looking a key up in an appended association list skips a left part that
does not hold the key. -/
theorem lookup_append_of_none {β : Type} (l₁ l₂ : List (String × β)) (k : String)
    (h : l₁.lookup k = none) : (l₁ ++ l₂).lookup k = l₂.lookup k := by
  induction l₁ with
  | nil => simp
  | cons hd tl ih =>
    obtain ⟨k', v⟩ := hd
    by_cases hk : k == k'
    · simp [List.lookup, hk] at h
    · simp only [List.cons_append, List.lookup, hk] at h ⊢
      exact ih h

/-- Claim C2: the discriminator the `event` attribute bakes into the
generated constant equals the first 8 bytes of the cryptographic hash of
`"event:" ++ TypeName` (the spec-side formulation), whenever the digest has
at least 8 bytes. -/
theorem event_discriminator_is_hash_head (h : HashFun) (name : String)
    (hlen : 8 ≤ (h (strBytes (discriminator_preimage name))).length) :
    eventDiscriminator h name = some (specDiscriminatorTag h name) := by
  unfold eventDiscriminator specDiscriminatorTag copyFromSlice
  unfold discriminator_preimage at hlen ⊢
  simp [List.length_take, Nat.min_eq_left hlen]

/-- Witness for C2 at a concrete digest function and type name. -/
theorem event_discriminator_is_hash_head_witness :
    8 ≤ (hashEx (strBytes (discriminator_preimage "MyEvent"))).length
      ∧ eventDiscriminator hashEx "MyEvent" = some (specDiscriminatorTag hashEx "MyEvent") :=
  ⟨by decide, event_discriminator_is_hash_head hashEx "MyEvent" (by decide)⟩

/-- Claim C3: the generated `Event::data` is the baked discriminator
followed by the serializer's payload bytes, so its first 8 bytes are exactly
the type's `DISCRIMINATOR`, for every payload, including the empty one. -/
theorem event_data_is_tagged_record (h : HashFun) (name : String) (disc : List Nat)
    (hd : eventDiscriminator h name = some disc)
    {α : Type} (ser : α → Option (List Nat)) (e : α) (p : List Nat)
    (hser : ser e = some p) :
    eventData disc ser e = some (disc ++ p) ∧ (disc ++ p).take 8 = disc := by
  have h8 := eventDiscriminator_length h name disc hd
  refine ⟨by simp [eventData, hser], ?_⟩
  rw [← h8]
  exact List.take_left disc p

/-- Witness for C3, with a zero-length serialized payload. -/
theorem event_data_is_tagged_record_witness :
    eventDiscriminator hashEx "MyEvent" = some (strBytes "event:My")
      ∧ (fun (_ : Nat) => some ([] : List Nat)) 0 = some []
      ∧ eventData (strBytes "event:My") (fun (_ : Nat) => some ([] : List Nat)) 0
          = some (strBytes "event:My" ++ [])
      ∧ (strBytes "event:My" ++ []).take 8 = strBytes "event:My" := by
  refine ⟨by decide, rfl, ?_⟩
  exact event_data_is_tagged_record hashEx "MyEvent" (strBytes "event:My") (by decide)
    (fun (_ : Nat) => some ([] : List Nat)) 0 [] rfl

/-- Claim C8: encoding is all-or-nothing — `Event::data` aborts exactly when
the external serializer fails, and otherwise returns the complete
tag-prefixed record; no partial record is ever produced. -/
theorem event_data_all_or_nothing (disc : List Nat) {α : Type}
    (ser : α → Option (List Nat)) (e : α) :
    (eventData disc ser e = none ↔ ser e = none)
      ∧ ∀ p, ser e = some p → eventData disc ser e = some (disc ++ p) := by
  unfold eventData
  cases hser : ser e with
  | none => simp
  | some payload => simp

/-- Witness for C8 at a concrete serializer that fails on input 0 and
succeeds elsewhere. -/
theorem event_data_all_or_nothing_witness :
    eventData [1, 2] serEx 0 = none ∧ eventData [1, 2] serEx 3 = some [1, 2, 3] :=
  ⟨(event_data_all_or_nothing [1, 2] serEx 0).1.mpr (by decide),
    (event_data_all_or_nothing [1, 2] serEx 3).2 [3] (by decide)⟩

/-- Claim C1: for every event record and accounts context with a recorded
bump, the authenticated emitter hands the oracle exactly one invocation
whose instruction data is the fixed tag followed by the event record, whose
target is the owning program's identity, whose single account argument is
the authority address marked required-signer and read-only, and whose
signer proof is the `("__event_authority", bump)` seed pair. -/
theorem emit_cpi_envelope_spec (h : HashFun) (oracle : Oracle) (ctx : CpiContext)
    (rec : List Nat) (bump : Nat) (owningId : Pubkey)
    (hb : ctx.bumps.lookup "event_authority" = some bump)
    (hP : ctx.program.key = owningId) :
    ∃ inv : Invocation,
      (emit_cpi h oracle ctx (some rec)).invoked = [inv]
        ∧ inv.ix.data = EVENT_IX_TAG_LE h ++ rec
        ∧ inv.ix.program_id = owningId
        ∧ inv.ix.accounts = [⟨ctx.event_authority.key, true, false⟩]
        ∧ inv.seeds = [[strBytes "__event_authority", [bump]]] := by
  refine ⟨emitCpiEnvelope h ctx rec bump, ?_, rfl, hP, rfl, rfl⟩
  unfold emit_cpi
  rw [hb]
  cases horc : oracle (emitCpiEnvelope h ctx rec bump).ix
      (emitCpiEnvelope h ctx rec bump).infos
      (emitCpiEnvelope h ctx rec bump).seeds <;>
    simp [horc]

/-- Witness for C1 at a concrete context, record and oracle. -/
theorem emit_cpi_envelope_spec_witness :
    ctxEx.bumps.lookup "event_authority" = some 5
      ∧ ∃ inv : Invocation,
          (emit_cpi hashEx oracleOk ctxEx (some [9])).invoked = [inv]
            ∧ inv.ix.data = EVENT_IX_TAG_LE hashEx ++ [9]
            ∧ inv.ix.program_id = 3
            ∧ inv.ix.accounts = [⟨ctxEx.event_authority.key, true, false⟩]
            ∧ inv.seeds = [[strBytes "__event_authority", [5]]] :=
  ⟨by decide, emit_cpi_envelope_spec hashEx oracleOk ctxEx [9] 5 3 (by decide) rfl⟩

/-- Claim C9: a failure returned by the oracle's invoke is converted through
the framework error type and returned to the caller as the single outcome;
the trace holds exactly that one invocation and nothing after it. -/
theorem emit_cpi_propagates_oracle_failure (h : HashFun) (oracle : Oracle)
    (ctx : CpiContext) (rec : List Nat) (bump : Nat) (code : Nat)
    (hb : ctx.bumps.lookup "event_authority" = some bump)
    (horc : oracle (emitCpiEnvelope h ctx rec bump).ix
        (emitCpiEnvelope h ctx rec bump).infos
        (emitCpiEnvelope h ctx rec bump).seeds = .error code) :
    emit_cpi h oracle ctx (some rec)
      = ⟨[emitCpiEnvelope h ctx rec bump], .failed (errorFrom code)⟩ := by
  unfold emit_cpi
  rw [hb]
  simp [horc]

/-- Witness for C9 at a concrete always-failing oracle. -/
theorem emit_cpi_propagates_oracle_failure_witness :
    ctxEx.bumps.lookup "event_authority" = some 5
      ∧ emit_cpi hashEx oracleFail ctxEx (some [9])
          = ⟨[emitCpiEnvelope hashEx ctxEx [9] 5], .failed (errorFrom 7)⟩ :=
  ⟨by decide,
    emit_cpi_propagates_oracle_failure hashEx oracleFail ctxEx [9] 5 7 (by decide) rfl⟩

/-- Claim C4: an accounts context whose presented authority differs from the
address derived from the fixed seed and the owning program is rejected with
a hard authorization failure before any dispatch occurs. -/
theorem emit_rejects_foreign_authority (h : HashFun) (derive : DeriveFun)
    (oracle : Oracle) (owningId : Pubkey) (ctx : CpiContext)
    (rec? : Option (List Nat))
    (hne : ctx.event_authority.key
        ≠ (derive [strBytes "__event_authority"] owningId).1) :
    emitAuthenticated h derive oracle owningId ctx rec?
      = ⟨[], .failed .authorityMismatch⟩ := by
  unfold emitAuthenticated validateEventCpiAccounts
  simp [hne]

/-- Witness for C4: an arbitrary externally-owned address supplied as the
authority is rejected without dispatch. -/
theorem emit_rejects_foreign_authority_witness :
    ctxEx.event_authority.key ≠ (deriveEx [strBytes "__event_authority"] 3).1
      ∧ emitAuthenticated hashEx deriveEx oracleOk 3 ctxEx (some [1])
          = ⟨[], .failed .authorityMismatch⟩ :=
  ⟨by decide,
    emit_rejects_foreign_authority hashEx deriveEx oracleOk 3 ctxEx (some [1]) (by decide)⟩

/-- Claim C5: an accounts context whose presented program differs from the
owning identity is rejected — no dispatch is issued and the result is the
authorization-mismatch failure. -/
theorem emit_rejects_foreign_program (h : HashFun) (derive : DeriveFun)
    (oracle : Oracle) (owningId : Pubkey) (ctx : CpiContext)
    (rec? : Option (List Nat))
    (hne : ctx.program.key ≠ owningId) :
    emitAuthenticated h derive oracle owningId ctx rec?
      = ⟨[], .failed .authorityMismatch⟩ := by
  unfold emitAuthenticated validateEventCpiAccounts
  by_cases ha : ctx.event_authority.key
      = (derive [strBytes "__event_authority"] owningId).1
  · simp [ha, hne]
  · simp [ha]

/-- Witness for C5 at owning identity 99 and supplied program 3. -/
theorem emit_rejects_foreign_program_witness :
    ctxEx.program.key ≠ 99
      ∧ emitAuthenticated hashEx deriveEx oracleOk 99 ctxEx (some [1])
          = ⟨[], .failed .authorityMismatch⟩ :=
  ⟨by decide,
    emit_rejects_foreign_program hashEx deriveEx oracleOk 99 ctxEx (some [1]) (by decide)⟩

/-- Claim C10: the generated emitter looks the bump up by the name
`"event_authority"` and unwraps it, so it panics without dispatching when
the context lacks that entry; a context built by the `event_cpi`-generated
accounts struct always holds the entry, so the lookup succeeds there. -/
theorem emit_cpi_bump_precondition (h : HashFun) (oracle : Oracle)
    (ctx : CpiContext) (rec? : Option (List Nat)) (derive : DeriveFun)
    (owningId : Pubkey) (userBumps : List (String × Nat)) :
    (ctx.bumps.lookup "event_authority" = none →
        emit_cpi h oracle ctx rec? = ⟨[], .panicked⟩)
      ∧ (userBumps.lookup "event_authority" = none →
          (buildEventCpiContext derive owningId userBumps).bumps.lookup "event_authority"
            = some (derive [strBytes "__event_authority"] owningId).2) := by
  constructor
  · intro hnone
    unfold emit_cpi
    rw [hnone]
  · intro hu
    unfold buildEventCpiContext
    rw [lookup_append_of_none _ _ _ hu]
    rfl

/-- Witness for C10: a bump-less context panics; an `event_cpi`-built
context resolves the bump. -/
theorem emit_cpi_bump_precondition_witness :
    ctxNoBump.bumps.lookup "event_authority" = none
      ∧ emit_cpi hashEx oracleOk ctxNoBump (some [1]) = ⟨[], .panicked⟩
      ∧ ([("lamports", 1)] : List (String × Nat)).lookup "event_authority" = none
      ∧ (buildEventCpiContext deriveEx 3 [("lamports", 1)]).bumps.lookup "event_authority"
          = some 254 :=
  ⟨rfl,
    (emit_cpi_bump_precondition hashEx oracleOk ctxNoBump (some [1]) deriveEx 3
      [("lamports", 1)]).1 rfl,
    rfl,
    (emit_cpi_bump_precondition hashEx oracleOk ctxNoBump (some [1]) deriveEx 3
      [("lamports", 1)]).2 rfl⟩

/-- Decoding an alphabet character recovers its sextet value. -/
theorem b64Index_b64Char : ∀ s, s < 64 → b64Index (b64Char s) = some s := by decide

/-- Alphabet characters are never the padding character. -/
theorem b64Char_ne_pad : ∀ s, s < 64 → b64Char s ≠ '=' := by decide

/-- Base64 decoding inverts base64 encoding on byte strings. -/
theorem b64_roundtrip :
    ∀ l : List Nat, (∀ x ∈ l, x < 256) → b64Decode (b64Encode l) = some l
  | [], _ => rfl
  | [a], h => by
      have ha : a < 256 := h a (by simp)
      have e1 := b64Index_b64Char (a / 4) (by omega)
      have e2 := b64Index_b64Char (a % 4 * 16) (by omega)
      simp [b64Encode, b64Decode, e1, e2]
      omega
  | [a, b], h => by
      have ha : a < 256 := h a (by simp)
      have hb : b < 256 := h b (by simp)
      have e1 := b64Index_b64Char (a / 4) (by omega)
      have e2 := b64Index_b64Char (a % 4 * 16 + b / 16) (by omega)
      have e3 := b64Index_b64Char (b % 16 * 4) (by omega)
      have n3 := b64Char_ne_pad (b % 16 * 4) (by omega)
      simp [b64Encode, b64Decode, e1, e2, e3, n3]
      omega
  | a :: b :: c :: rest, h => by
      have ha : a < 256 := h a (by simp)
      have hb : b < 256 := h b (by simp)
      have hc : c < 256 := h c (by simp)
      have ih := b64_roundtrip rest (fun x hx => h x (by simp [hx]))
      have e1 := b64Index_b64Char (a / 4) (by omega)
      have e2 := b64Index_b64Char (a % 4 * 16 + b / 16) (by omega)
      have e3 := b64Index_b64Char (b % 16 * 4 + c / 64) (by omega)
      have e4 := b64Index_b64Char (c % 64) (by omega)
      have n3 := b64Char_ne_pad (b % 16 * 4 + c / 64) (by omega)
      have n4 := b64Char_ne_pad (c % 64) (by omega)
      simp [b64Encode, b64Decode, e1, e2, e3, e4, n3, n4, ih]
      omega

/-- Claim C6: the log-channel emitter produces the event record via the
codec and writes exactly that record through the single structured-data log
primitive in one call, and the log line decodes (base64) to a byte string
that begins with the type's 8-byte tag followed by the serialized payload. -/
theorem emit_log_writes_tagged_record (h : HashFun) (name : String)
    (disc : List Nat) (hd : eventDiscriminator h name = some disc)
    {α : Type} (ser : α → Option (List Nat)) (e : α) (p : List Nat)
    (hser : ser e = some p) (log : List (List (List Nat)))
    (hbytes : ∀ x ∈ disc ++ p, x < 256) :
    emitLog disc ser e log = some (sol_log_data [disc ++ p] log)
      ∧ sol_log_data [disc ++ p] log = log ++ [[disc ++ p]]
      ∧ b64Decode (logLineOfRecord (disc ++ p)) = some (disc ++ p)
      ∧ (disc ++ p).take 8 = disc := by
  have h8 := eventDiscriminator_length h name disc hd
  refine ⟨by simp [emitLog, eventData, hser], rfl, b64_roundtrip _ hbytes, ?_⟩
  rw [← h8]
  exact List.take_left disc p

/-- Witness for C6: the end-to-end log-channel scenario at a concrete
event record. -/
theorem emit_log_writes_tagged_record_witness :
    eventDiscriminator hashEx "MyEvent" = some (strBytes "event:My")
      ∧ emitLog (strBytes "event:My") (fun (_ : Nat) => some [5, 6]) 0 []
          = some (sol_log_data [strBytes "event:My" ++ [5, 6]] [])
      ∧ b64Decode (logLineOfRecord (strBytes "event:My" ++ [5, 6]))
          = some (strBytes "event:My" ++ [5, 6])
      ∧ (strBytes "event:My" ++ [5, 6]).take 8 = strBytes "event:My" := by
  have happ := emit_log_writes_tagged_record hashEx "MyEvent" (strBytes "event:My")
    (by decide) (fun (_ : Nat) => some [5, 6]) 0 [5, 6] rfl [] (by decide)
  exact ⟨by decide, happ.1, happ.2.2.1, happ.2.2.2⟩

/-- The truncation of the concrete digest function `hInjEx` has no
collisions: the whole preimage survives in the first digest component. -/
theorem hInjEx_collision_free :
    ∀ s t : List Nat, s ≠ t → (hInjEx s).take 8 ≠ (hInjEx t).take 8 := by
  intro s t hne hEq
  simp [hInjEx] at hEq
  exact hne hEq

/-- Claim C7: for a digest function whose 8-byte truncation is
collision-free (the spec's idealization of the cryptographic hash), no event
type's discriminator ever equals the reserved instruction-envelope tag,
because the event preimage namespace `"event:..."` is disjoint from the
reserved preimage `"anchor:event"`. -/
theorem ix_tag_never_event_discriminator (h : HashFun) (name : String)
    (hcoll : ∀ s t : List Nat, s ≠ t → (h s).take 8 ≠ (h t).take 8) :
    eventDiscriminator h name ≠ some (EVENT_IX_TAG_LE h) := by
  intro hEq
  unfold eventDiscriminator copyFromSlice EVENT_IX_TAG_LE at hEq
  by_cases hcl :
      ((h (strBytes (discriminator_preimage name))).take 8).length
        = (List.replicate 8 (0 : Nat)).length
  · rw [if_pos hcl] at hEq
    have hEq' : (h (strBytes (discriminator_preimage name))).take 8
        = (h (strBytes "anchor:event")).take 8 := Option.some.inj hEq
    refine hcoll _ _ ?_ hEq'
    intro hpre
    have hsplit : ("event:" ++ name).data = "event:".data ++ name.data := rfl
    have hd6 : "event:".data = ['e', 'v', 'e', 'n', 't', ':'] := rfl
    have h1 : (strBytes (discriminator_preimage name)).head? = some 101 := by
      unfold strBytes discriminator_preimage
      rw [hsplit, hd6]
      rfl
    have h2 : (strBytes "anchor:event").head? = some 97 := by decide
    rw [hpre] at h1
    have h3 := h1.symm.trans h2
    simp at h3
  · rw [if_neg hcl] at hEq
    cases hEq

/-- Witness for C7 at a concrete collision-free digest function and a
concrete event type name. -/
theorem ix_tag_never_event_discriminator_witness :
    eventDiscriminator hInjEx "MyEvent" ≠ some (EVENT_IX_TAG_LE hInjEx) :=
  ix_tag_never_event_discriminator hInjEx "MyEvent" hInjEx_collision_free

end AnchorEvent
